import Mathlib

/-
Verification development for the Ajera project-fetcher pipeline
(`main.py`, class `ProjectFetcher`).

The two verified cores are:
  * the snapshot comparison / classification engine
    (`compare_contract_amounts` and the flag / percent computation of
    `save_comparison_report`), embedded over association-list dictionaries
    that mirror the Python dict comprehensions built from the two Excel
    workbooks; monetary amounts are rationals, and a missing / `None`
    spreadsheet cell is `Option.none`;
  * the batched fetch-with-retry pipeline (`fetch_project_details` and
    `process_projects_in_batches`), embedded with an explicit oracle giving
    the outcome of each attempted API call.
-/

namespace Ajera

/-- Row of the "Projects" sheet as read back by `iter_rows`: columns are
Project ID, Description, Total Contract Amount, Status, Last Modified.
An empty cell reads as `none`. -/
structure ProjRow where
  id : Option String
  description : Option String
  amount : Option ℚ
  status : Option String
  lastModified : Option String
deriving DecidableEq, Repr

/-- Row of the "Phases" sheet: Project ID, Phase ID, Description,
Total Contract Amount, Status, Last Modified. -/
structure PhaseRow where
  projectId : Option String
  phaseId : Option String
  description : Option String
  amount : Option ℚ
  status : Option String
  lastModified : Option String
deriving DecidableEq, Repr

/-- Value of one dictionary entry built by the comprehensions in
`compare_contract_amounts` (`amount`, `description`, `status`,
`last_modified`). -/
structure Entry where
  amount : Option ℚ
  description : Option String
  status : Option String
  last_modified : Option String
deriving DecidableEq, Repr

/-- One saved workbook (snapshot): the "Projects" sheet rows and the
"Phases" sheet rows. -/
structure Workbook where
  projects : List ProjRow
  phases : List PhaseRow
deriving DecidableEq, Repr

/-- Lookup in an association-list dictionary (first matching key; built
dictionaries keep keys unique, mirroring a Python dict). -/
def dlookup {K V : Type} [DecidableEq K] (k : K) : List (K × V) → Option V
  | [] => none
  | (k', v) :: rest => if k' = k then some v else dlookup k rest

/-- Insertion into an association-list dictionary with Python-dict
semantics: overwriting an existing key keeps its position, a new key is
appended at the end. -/
def dinsert {K V : Type} [DecidableEq K] (k : K) (v : V) : List (K × V) → List (K × V)
  | [] => [(k, v)]
  | (k', v') :: rest => if k' = k then (k, v) :: rest else (k', v') :: dinsert k v rest

/-- Entry built from a Projects-sheet row
(`{'amount': row[2], 'description': row[1], 'status': row[3], 'last_modified': row[4]}`). -/
def projEntry (r : ProjRow) : Entry :=
  ⟨r.amount, r.description, r.status, r.lastModified⟩

/-- Entry built from a Phases-sheet row
(`{'amount': row[3], 'description': row[2], 'status': row[4], 'last_modified': row[5]}`). -/
def phaseEntry (r : PhaseRow) : Entry :=
  ⟨r.amount, r.description, r.status, r.lastModified⟩

/-- The `old_projects` / `new_projects` dict comprehension: rows with a
falsy Project ID (`if row[0].value`) are skipped; a duplicate ID
overwrites (last write wins). -/
def buildProjDict (rows : List ProjRow) : List (String × Entry) :=
  rows.foldl
    (fun d r =>
      match r.id with
      | some k => dinsert k (projEntry r) d
      | none => d)
    []

/-- The `old_phases` / `new_phases` dict comprehension, keyed by
`(row[0].value, row[1].value)`; rows with a falsy Project ID or Phase ID
are skipped (`if row[0].value and row[1].value`). -/
def buildPhaseDict (rows : List PhaseRow) : List ((String × String) × Entry) :=
  rows.foldl
    (fun d r =>
      match r.projectId, r.phaseId with
      | some p, some ph => dinsert (p, ph) (phaseEntry r) d
      | _, _ => d)
    []

/-- Default entry used for a key absent from one side:
`{'amount': 0, 'description': 'N/A', 'status': 'N/A', 'last_modified': 'N/A'}`. -/
def defaultEntry : Entry :=
  { amount := some 0, description := some "N/A", status := some "N/A",
    last_modified := some "N/A" }

/-- The `old_data` / `new_data` resolution: `dict.get(key, default)`. -/
def resolvedEntry {K : Type} [DecidableEq K] (d : List (K × Entry)) (k : K) : Entry :=
  (dlookup k d).getD defaultEntry

/-- The resolved amount `data['amount'] or 0`: a `None` amount (and a key
absent from the dictionary) counts as `0`. On rationals, `x or 0` agrees
with `Option.getD` since `0 or 0 = 0` in Python. -/
def resolvedAmount {K : Type} [DecidableEq K] (d : List (K × Entry)) (k : K) : ℚ :=
  (resolvedEntry d k).amount.getD 0

/-- The key universe iterated by `for ... in set(old) | set(new)`:
every key of either dictionary, each exactly once. -/
def keysUnion {K V : Type} [DecidableEq K] (old new : List (K × V)) : List K :=
  ((old.map Prod.fst) ++ (new.map Prod.fst)).dedup

/-- Element of `changes["projects"]`. -/
structure ProjChange where
  id : String
  description : Option String
  status : Option String
  oldAmount : ℚ
  newAmount : ℚ
  change : ℚ
  oldLastModified : Option String
  newLastModified : Option String
deriving DecidableEq, Repr

/-- Element of `changes["phases"]`. -/
structure PhaseChange where
  projectId : String
  phaseId : String
  description : Option String
  status : Option String
  oldAmount : ℚ
  newAmount : ℚ
  change : ℚ
  oldLastModified : Option String
  newLastModified : Option String
deriving DecidableEq, Repr

/-- Element of `changes["validation"]["missing_phases"]`. -/
structure MissingPhase where
  projectId : String
  phaseId : String
  description : Option String
  status : Option String
  amount : Option ℚ
deriving DecidableEq, Repr

/-- Element of `changes["validation"]["phase_status_changes"]`. -/
structure PhaseStatusChange where
  projectId : String
  phaseId : String
  description : Option String
  oldStatus : Option String
  newStatus : Option String
deriving DecidableEq, Repr

/-- The changes dictionary returned by `compare_contract_amounts`. -/
structure Changes where
  projects : List ProjChange
  phases : List PhaseChange
  missing_phases : List MissingPhase
  phase_status_changes : List PhaseStatusChange
deriving DecidableEq, Repr

/-- The empty changes dictionary (returned on a first run with no
previous file, and the starting accumulator otherwise). -/
def emptyChanges : Changes := ⟨[], [], [], []⟩

/-- Body of the project loop for one key: emit a change record iff the
resolved amounts differ; the record carries the new side's description and
status, both resolved amounts, the delta, and both last-modified values. -/
def emitProjChange (oldP newP : List (String × Entry)) (k : String) : Option ProjChange :=
  let old_data := resolvedEntry oldP k
  let new_data := resolvedEntry newP k
  let old_amount := old_data.amount.getD 0
  let new_amount := new_data.amount.getD 0
  if old_amount ≠ new_amount then
    some { id := k, description := new_data.description, status := new_data.status,
           oldAmount := old_amount, newAmount := new_amount,
           change := new_amount - old_amount,
           oldLastModified := old_data.last_modified,
           newLastModified := new_data.last_modified }
  else none

/-- Amount-change part of the phase loop body for one key. -/
def emitPhaseChange (oldD newD : List ((String × String) × Entry)) (k : String × String) :
    Option PhaseChange :=
  let old_data := resolvedEntry oldD k
  let new_data := resolvedEntry newD k
  let old_amount := old_data.amount.getD 0
  let new_amount := new_data.amount.getD 0
  if old_amount ≠ new_amount then
    some { projectId := k.1, phaseId := k.2,
           description := new_data.description, status := new_data.status,
           oldAmount := old_amount, newAmount := new_amount,
           change := new_amount - old_amount,
           oldLastModified := old_data.last_modified,
           newLastModified := new_data.last_modified }
  else none

/-- Missing-phase part of the phase loop body:
`if phase_key in old_phases and phase_key not in new_phases`. -/
def emitMissingPhase (oldD newD : List ((String × String) × Entry)) (k : String × String) :
    Option MissingPhase :=
  let old_data := resolvedEntry oldD k
  if (dlookup k oldD).isSome && (dlookup k newD).isNone then
    some { projectId := k.1, phaseId := k.2,
           description := old_data.description, status := old_data.status,
           amount := old_data.amount }
  else none

/-- Status-change part of the phase loop body:
`if phase_key in old_phases and phase_key in new_phases and old_data['status'] != new_data['status']`. -/
def emitPhaseStatusChange (oldD newD : List ((String × String) × Entry)) (k : String × String) :
    Option PhaseStatusChange :=
  let old_data := resolvedEntry oldD k
  let new_data := resolvedEntry newD k
  if (dlookup k oldD).isSome && (dlookup k newD).isSome
      && decide (old_data.status ≠ new_data.status) then
    some { projectId := k.1, phaseId := k.2,
           description := new_data.description,
           oldStatus := old_data.status, newStatus := new_data.status }
  else none

/-- Embedding of `ProjectFetcher.compare_contract_amounts`. A missing
previous workbook (`os.path.exists` false) yields the empty changes
dictionary. Otherwise, both granularities iterate the union of keys of
the dictionaries built from the two workbooks; each loop's independent
appends are rendered as one `filterMap` per output list. -/
def compare_contract_amounts (previous : Option Workbook) (current : Workbook) : Changes :=
  match previous with
  | none => emptyChanges
  | some prev =>
    let old_projects := buildProjDict prev.projects
    let new_projects := buildProjDict current.projects
    let old_phases := buildPhaseDict prev.phases
    let new_phases := buildPhaseDict current.phases
    { projects :=
        (keysUnion old_projects new_projects).filterMap
          (emitProjChange old_projects new_projects),
      phases :=
        (keysUnion old_phases new_phases).filterMap
          (emitPhaseChange old_phases new_phases),
      missing_phases :=
        (keysUnion old_phases new_phases).filterMap
          (emitMissingPhase old_phases new_phases),
      phase_status_changes :=
        (keysUnion old_phases new_phases).filterMap
          (emitPhaseStatusChange old_phases new_phases) }

/-- Model of Python `str.strip()`: remove leading and trailing
whitespace. Defined on the character list so it evaluates in the kernel. -/
def pyStrip (s : String) : String :=
  ⟨((s.data.dropWhile Char.isWhitespace).reverse.dropWhile Char.isWhitespace).reverse⟩

/-- Flag computation of `save_comparison_report` (identical for the
project, phase and filtered-phase sheets): `diff` is the record's stored
`"Change"` value. -/
def reportFlag (old_amount new_amount diff : ℚ) : String :=
  let flag :=
    if old_amount = 0 then (if 0 < new_amount then "New" else "")
    else if 0 < diff then "Increase"
    else if diff < 0 then "Decrease"
    else ""
  if old_amount ≠ 0 ∧ 10 ≤ |diff / old_amount * 100| then
    pyStrip (flag ++ " (Significant)")
  else flag

/-- Change-percent computation of `save_comparison_report`:
`((diff / old_amount) * 100) if old_amount != 0 else 100`. -/
def reportChangePercent (old_amount diff : ℚ) : ℚ :=
  if old_amount ≠ 0 then diff / old_amount * 100 else 100

/-- Modelled from the spec: the classification rule of section 4.3 step 4,
stated in the spec's own terms (delta computed as `newAmount − oldAmount`,
`|delta / oldAmount| × 100 ≥ 10` for significance, space-joined and
trimmed). Used as the specification side of refinement claims. -/
def specClassification (oldAmount newAmount : ℚ) : String :=
  let delta := newAmount - oldAmount
  let base :=
    if oldAmount = 0 then (if 0 < newAmount then "New" else "")
    else if 0 < delta then "Increase"
    else if delta < 0 then "Decrease"
    else ""
  if oldAmount ≠ 0 ∧ 10 ≤ |delta / oldAmount| * 100 then
    pyStrip (base ++ " " ++ "(Significant)")
  else base

/-- Modelled from the spec: the change-percent rule of section 4.3 step 5,
`(delta / oldAmount) × 100` when `oldAmount ≠ 0`, else the sentinel `100`. -/
def specChangePercent (oldAmount newAmount : ℚ) : ℚ :=
  if oldAmount ≠ 0 then (newAmount - oldAmount) / oldAmount * 100 else 100

/-- Outcome taxonomy for one attempted API call: the spec distinguishes
transient (timeout / connection) from non-transient (authentication)
failures. -/
inductive FetchError
  /-- Transient failure: timeout or connection error. -/
  | transient
  /-- Non-transient failure: authentication / authorization error. -/
  | auth
deriving DecidableEq, Repr

/-- Observable trace of one `fetch_project_details` call: its returned
value (`None` on exhaustion), the total number of attempts made, the list
of backoff sleeps performed (`retry_delay * attempt`), and whether the
final "Failed to fetch details" log entry was written. -/
structure FetchTrace (α : Type) where
  result : Option α
  attempts : ℕ
  delays : List ℕ
  failureLogged : Bool
deriving Repr

/-- Recursion of `fetch_project_details`, structurally on the number of
retries still allowed: `remaining = retry_count - attempt` encodes the
guard `attempt < self.retry_count` (positive iff the guard holds). Every
exception is caught and retried identically, whatever its kind;
exhaustion logs the failure and returns `None`. -/
def fetchDetailsGo {α : Type} (oracle : String → ℕ → Except FetchError α)
    (retry_delay : ℕ) (project_key : String) : ℕ → ℕ → FetchTrace α
  | attempt, remaining =>
    match oracle project_key attempt with
    | .ok r => ⟨some r, 1, [], false⟩
    | .error _ =>
      match remaining with
      | 0 => ⟨none, 1, [], true⟩
      | remaining' + 1 =>
        let t := fetchDetailsGo oracle retry_delay project_key (attempt + 1) remaining'
        ⟨t.result, t.attempts + 1, retry_delay * attempt :: t.delays, t.failureLogged⟩

/-- Embedding of `ProjectFetcher.fetch_project_details`: `oracle key n`
is the outcome of the n-th attempt's API call for `key`. A successful
attempt returns the project; a failed attempt is retried with backoff
sleep `retry_delay * attempt` while `attempt < retry_count`, and after
the last allowed attempt the failure is logged and `None` returned. -/
def fetch_project_details {α : Type} (oracle : String → ℕ → Except FetchError α)
    (retry_count retry_delay : ℕ) (project_key : String) (attempt : ℕ) : FetchTrace α :=
  fetchDetailsGo oracle retry_delay project_key attempt (retry_count - attempt)

/-- Embedding of `ProjectFetcher.process_projects_in_batches`: every
project key is fetched (batching only paces the loop), successful results
are appended, a `None` result is skipped. -/
def process_projects_in_batches {α : Type} (oracle : String → ℕ → Except FetchError α)
    (retry_count retry_delay : ℕ) (projects : List String) : List α :=
  projects.filterMap fun k =>
    (fetch_project_details oracle retry_count retry_delay k 1).result

/-- Number of projects whose fetch exhausted its retries: each such
project writes exactly one "Failed to fetch details" log entry, so this
is the failed count the run reports. -/
def failed_project_count {α : Type} (oracle : String → ℕ → Except FetchError α)
    (retry_count retry_delay : ℕ) (projects : List String) : ℕ :=
  projects.countP fun k =>
    (fetch_project_details oracle retry_count retry_delay k 1).failureLogged

/-- The entry stored for `k` by the project-dictionary comprehension is
the one from the last row carrying id `k` (last write wins). -/
def lastEntry (k : String) : List ProjRow → Option Entry
  | [] => none
  | r :: rest =>
    match lastEntry k rest with
    | some e => some e
    | none => if r.id = some k then some (projEntry r) else none

/-- The empty previous snapshot (both sheets empty). -/
def emptyWorkbook : Workbook := ⟨[], []⟩

/-- Example previous snapshot: one project P1 at 100 and two phases
(P1,A) at 10 (status Open) and (P1,B) at 7. -/
def wprev : Workbook :=
  ⟨[⟨some "P1", some "Alpha", some 100, some "Active", some "t1"⟩],
   [⟨some "P1", some "A", some "PhA", some 10, some "Open", some "u1"⟩,
    ⟨some "P1", some "B", some "PhB", some 7, some "Open", some "v1"⟩]⟩

/-- Example current snapshot: P1 dropped to 80, phase (P1,A) at 15 with
status Closed, phase (P1,B) gone. -/
def wcur : Workbook :=
  ⟨[⟨some "P1", some "Alpha", some 80, some "Active", some "t2"⟩],
   [⟨some "P1", some "A", some "PhA", some 15, some "Closed", some "u2"⟩]⟩

/-- The project change record `compare` emits for `wprev` → `wcur`. -/
def cW : ProjChange :=
  ⟨"P1", some "Alpha", some "Active", 100, 80, 80 - 100, some "t1", some "t2"⟩

/-- The project change record `compare` emits for an empty previous
snapshot and current snapshot `wprev`. -/
def cF : ProjChange :=
  ⟨"P1", some "Alpha", some "Active", 0, 100, 100 - 0, some "N/A", some "t1"⟩

/-- Two rows with the same Project ID (a duplicate Identifier): the
second carries different data. -/
def rowDupA : ProjRow := ⟨some "P1", some "first", some 100, some "Active", some "t1"⟩

/-- The later duplicate row, which wins. -/
def rowDupB : ProjRow := ⟨some "P1", some "second", some 200, some "Active", some "t2"⟩

/-- Previous snapshot whose only project carries a `None` amount. -/
def wbNullPrev : Workbook :=
  ⟨[⟨some "P1", some "D", none, some "Active", some "t0"⟩], []⟩

/-- Current snapshot whose only project carries a `None` amount. -/
def wbNullCur : Workbook :=
  ⟨[⟨some "P1", some "D", none, some "Active", some "t3"⟩], []⟩

/-- Current snapshot whose only project carries amount 50. -/
def wbAmtCur : Workbook :=
  ⟨[⟨some "P1", some "D", some 50, some "Active", some "t3"⟩], []⟩

/-- The record emitted for a null-to-50 transition (null previous
amount resolves to 0; the previous row's last-modified is carried). -/
def cNull : ProjChange :=
  ⟨"P1", some "D", some "Active", 0, 50, 50 - 0, some "t0", some "t3"⟩

/-- The record emitted for an absent-to-50 transition (defaults fill the
previous side's non-amount fields). -/
def cAbsent : ProjChange :=
  ⟨"P1", some "D", some "Active", 0, 50, 50 - 0, some "N/A", some "t3"⟩

/-- Previous snapshot whose only phase (P1,A) carries a `None` amount. -/
def phNullPrev : Workbook :=
  ⟨[], [⟨some "P1", some "A", some "PD", none, some "Open", some "w0"⟩]⟩

/-- Current snapshot whose only phase (P1,A) carries a `None` amount. -/
def phNullCur : Workbook :=
  ⟨[], [⟨some "P1", some "A", some "PD", none, some "Open", some "w3"⟩]⟩

/-- Current snapshot whose only phase (P1,A) carries amount 50. -/
def phAmtCur : Workbook :=
  ⟨[], [⟨some "P1", some "A", some "PD", some 50, some "Open", some "w3"⟩]⟩

/-- The phase record emitted for a null-to-50 transition of (P1,A). -/
def pNull : PhaseChange :=
  ⟨"P1", "A", some "PD", some "Open", 0, 50, 50 - 0, some "w0", some "w3"⟩

/-- The phase record emitted for an absent-to-50 transition of (P1,A). -/
def pAbsent : PhaseChange :=
  ⟨"P1", "A", some "PD", some "Open", 0, 50, 50 - 0, some "N/A", some "w3"⟩

/-- Record-source stub that always raises a transient error for project
"G" and succeeds immediately for every other key. -/
def oracleG : String → ℕ → Except FetchError String :=
  fun k _ => if k = "G" then .error .transient else .ok k

/-- Record-source stub that always raises a non-transient
(authentication) error. -/
def oracleAuth : String → ℕ → Except FetchError String :=
  fun _ _ => .error .auth

lemma dlookup_dinsert_self {K V : Type} [DecidableEq K] (k : K) (v : V) (d : List (K × V)) :
    dlookup k (dinsert k v d) = some v := by
  induction d with
  | nil => simp [dinsert, dlookup]
  | cons p rest ih =>
    obtain ⟨k', v'⟩ := p
    by_cases h : k' = k
    · subst h
      simp [dinsert, dlookup]
    · simp [dinsert, dlookup, h, ih]

lemma dlookup_dinsert_ne {K V : Type} [DecidableEq K] (k k' : K) (h : k' ≠ k) (v : V)
    (d : List (K × V)) : dlookup k (dinsert k' v d) = dlookup k d := by
  induction d with
  | nil => simp [dinsert, dlookup, h]
  | cons p rest ih =>
    obtain ⟨k'', v''⟩ := p
    by_cases h2 : k'' = k'
    · subst h2
      simp [dinsert, dlookup, h]
    · by_cases h3 : k'' = k
      · subst h3
        simp [dinsert, dlookup, h2]
      · simp [dinsert, dlookup, h2, h3, ih]

lemma dlookup_eq_none_of_not_mem {K V : Type} [DecidableEq K] (k : K) (d : List (K × V))
    (h : k ∉ d.map Prod.fst) : dlookup k d = none := by
  induction d with
  | nil => rfl
  | cons p rest ih =>
    obtain ⟨k', v'⟩ := p
    simp only [List.map_cons, List.mem_cons] at h
    push_neg at h
    rw [dlookup, if_neg (fun he => h.1 he.symm), ih h.2]

lemma mem_keys_of_dlookup_some {K V : Type} [DecidableEq K] (k : K) (v : V) (d : List (K × V))
    (h : dlookup k d = some v) : k ∈ d.map Prod.fst := by
  induction d with
  | nil => simp [dlookup] at h
  | cons p rest ih =>
    obtain ⟨k', v'⟩ := p
    by_cases h2 : k' = k
    · subst h2
      simp
    · rw [dlookup, if_neg h2] at h
      simp [ih h]

lemma keysUnion_nodup {K V : Type} [DecidableEq K] (old new : List (K × V)) :
    (keysUnion old new).Nodup :=
  List.nodup_dedup _

lemma mem_keysUnion {K V : Type} [DecidableEq K] (old new : List (K × V)) (k : K) :
    k ∈ keysUnion old new ↔ k ∈ old.map Prod.fst ∨ k ∈ new.map Prod.fst := by
  simp [keysUnion, List.mem_dedup, List.mem_append]

lemma countP_filterMap_of_not_mem {K R : Type} [DecidableEq K] (f : K → Option R)
    (idOf : R → K) (hid : ∀ k r, f k = some r → idOf r = k) (keys : List K) (k : K)
    (hk : k ∉ keys) : ((keys.filterMap f).countP fun r => decide (idOf r = k)) = 0 := by
  rw [List.countP_eq_zero]
  intro r hr
  rw [List.mem_filterMap] at hr
  obtain ⟨a, ha, hfa⟩ := hr
  have hra := hid a r hfa
  simp only [decide_eq_true_eq]
  intro he
  have hak : a = k := by rw [← hra]; exact he
  exact hk (hak ▸ ha)

lemma countP_filterMap_of_mem {K R : Type} [DecidableEq K] (f : K → Option R)
    (idOf : R → K) (hid : ∀ k r, f k = some r → idOf r = k) :
    ∀ (keys : List K), keys.Nodup → ∀ k ∈ keys,
      ((keys.filterMap f).countP fun r => decide (idOf r = k))
        = if (f k).isSome then 1 else 0 := by
  intro keys
  induction keys with
  | nil => intro _ k hk; simp at hk
  | cons a rest ih =>
    intro hnd k hk
    have hnd' := List.nodup_cons.mp hnd
    rcases List.mem_cons.mp hk with hka | hkr
    · subst hka
      cases hfa : f k with
      | none =>
        simp only [List.filterMap_cons, hfa]
        simp [countP_filterMap_of_not_mem f idOf hid rest k hnd'.1]
      | some b =>
        simp only [List.filterMap_cons, hfa]
        rw [List.countP_cons, countP_filterMap_of_not_mem f idOf hid rest k hnd'.1]
        simp [hid k b hfa]
    · have hka : k ≠ a := fun he => hnd'.1 (he ▸ hkr)
      cases hfa : f a with
      | none =>
        simp only [List.filterMap_cons, hfa]
        exact ih hnd'.2 k hkr
      | some b =>
        simp only [List.filterMap_cons, hfa]
        rw [List.countP_cons]
        have hba : idOf b = a := hid a b hfa
        have hdb : (decide (idOf b = k)) = false := by
          rw [decide_eq_false_iff_not, hba]
          exact fun he => hka he.symm
        rw [hdb]
        simp [ih hnd'.2 k hkr]

lemma emitProjChange_some_spec (oldP newP : List (String × Entry)) (k : String)
    (c : ProjChange) (h : emitProjChange oldP newP k = some c) :
    c.id = k ∧ c.oldAmount = resolvedAmount oldP k ∧ c.newAmount = resolvedAmount newP k
      ∧ c.change = c.newAmount - c.oldAmount ∧ c.oldAmount ≠ c.newAmount := by
  simp only [emitProjChange] at h
  split_ifs at h with hc
  cases h
  exact ⟨rfl, rfl, rfl, rfl, hc⟩

lemma emitProjChange_isSome (oldP newP : List (String × Entry)) (k : String) :
    (emitProjChange oldP newP k).isSome
      ↔ resolvedAmount oldP k ≠ resolvedAmount newP k := by
  constructor
  · intro h
    obtain ⟨c, hc⟩ := Option.isSome_iff_exists.mp h
    obtain ⟨_, ho, hn, _, hne⟩ := emitProjChange_some_spec _ _ _ _ hc
    rw [← ho, ← hn]
    exact hne
  · intro hne
    simp only [emitProjChange]
    split_ifs with hc
    · rfl
    · exact absurd hne hc

lemma emitPhaseChange_some_spec (oldD newD : List ((String × String) × Entry))
    (k : String × String) (c : PhaseChange) (h : emitPhaseChange oldD newD k = some c) :
    (c.projectId, c.phaseId) = k ∧ c.oldAmount = resolvedAmount oldD k
      ∧ c.newAmount = resolvedAmount newD k
      ∧ c.change = c.newAmount - c.oldAmount ∧ c.oldAmount ≠ c.newAmount := by
  simp only [emitPhaseChange] at h
  split_ifs at h with hc
  cases h
  exact ⟨rfl, rfl, rfl, rfl, hc⟩

lemma emitPhaseChange_isSome (oldD newD : List ((String × String) × Entry))
    (k : String × String) :
    (emitPhaseChange oldD newD k).isSome
      ↔ resolvedAmount oldD k ≠ resolvedAmount newD k := by
  constructor
  · intro h
    obtain ⟨c, hc⟩ := Option.isSome_iff_exists.mp h
    obtain ⟨_, ho, hn, _, hne⟩ := emitPhaseChange_some_spec _ _ _ _ hc
    rw [← ho, ← hn]
    exact hne
  · intro hne
    simp only [emitPhaseChange]
    split_ifs with hc
    · rfl
    · exact absurd hne hc

lemma projects_of_compare (prev cur : Workbook) :
    (compare_contract_amounts (some prev) cur).projects
      = (keysUnion (buildProjDict prev.projects) (buildProjDict cur.projects)).filterMap
          (emitProjChange (buildProjDict prev.projects) (buildProjDict cur.projects)) := rfl

lemma phases_of_compare (prev cur : Workbook) :
    (compare_contract_amounts (some prev) cur).phases
      = (keysUnion (buildPhaseDict prev.phases) (buildPhaseDict cur.phases)).filterMap
          (emitPhaseChange (buildPhaseDict prev.phases) (buildPhaseDict cur.phases)) := rfl

lemma missing_of_compare (prev cur : Workbook) :
    (compare_contract_amounts (some prev) cur).missing_phases
      = (keysUnion (buildPhaseDict prev.phases) (buildPhaseDict cur.phases)).filterMap
          (emitMissingPhase (buildPhaseDict prev.phases) (buildPhaseDict cur.phases)) := rfl

lemma status_changes_of_compare (prev cur : Workbook) :
    (compare_contract_amounts (some prev) cur).phase_status_changes
      = (keysUnion (buildPhaseDict prev.phases) (buildPhaseDict cur.phases)).filterMap
          (emitPhaseStatusChange (buildPhaseDict prev.phases) (buildPhaseDict cur.phases)) := rfl

/-- C5: comparing a snapshot with itself yields empty `parentChanges`,
`childChanges`, `missingChildren` and `childStatusChanges` collections. -/
theorem compare_self_empty (wb : Workbook) :
    compare_contract_amounts (some wb) wb = emptyChanges := by
  show Changes.mk _ _ _ _ = Changes.mk [] [] [] []
  congr 1
  · rw [List.filterMap_eq_nil_iff]
    intro k _
    simp [emitProjChange]
  · rw [List.filterMap_eq_nil_iff]
    intro k _
    simp [emitPhaseChange]
  · rw [List.filterMap_eq_nil_iff]
    intro k _
    cases h : dlookup k (buildPhaseDict wb.phases) <;> simp [emitMissingPhase, h]
  · rw [List.filterMap_eq_nil_iff]
    intro k _
    cases h : dlookup k (buildPhaseDict wb.phases) <;> simp [emitPhaseStatusChange, h]

/-- C4: for every key in the union of the two snapshots' key sets, at both
granularities, a change record is emitted iff the resolved old amount
(0 when absent) differs from the resolved new amount (0 when absent), and
every emitted record's delta equals newAmount − oldAmount. -/
theorem change_record_iff_amount_differs (prev cur : Workbook) (k : String)
    (pk : String × String) :
    (k ∈ keysUnion (buildProjDict prev.projects) (buildProjDict cur.projects) →
      ((∃ c ∈ (compare_contract_amounts (some prev) cur).projects, c.id = k) ↔
        resolvedAmount (buildProjDict prev.projects) k
          ≠ resolvedAmount (buildProjDict cur.projects) k))
    ∧ (∀ c ∈ (compare_contract_amounts (some prev) cur).projects,
        c.oldAmount = resolvedAmount (buildProjDict prev.projects) c.id
        ∧ c.newAmount = resolvedAmount (buildProjDict cur.projects) c.id
        ∧ c.change = c.newAmount - c.oldAmount)
    ∧ (pk ∈ keysUnion (buildPhaseDict prev.phases) (buildPhaseDict cur.phases) →
      ((∃ c ∈ (compare_contract_amounts (some prev) cur).phases,
          (c.projectId, c.phaseId) = pk) ↔
        resolvedAmount (buildPhaseDict prev.phases) pk
          ≠ resolvedAmount (buildPhaseDict cur.phases) pk))
    ∧ (∀ c ∈ (compare_contract_amounts (some prev) cur).phases,
        c.oldAmount = resolvedAmount (buildPhaseDict prev.phases) (c.projectId, c.phaseId)
        ∧ c.newAmount = resolvedAmount (buildPhaseDict cur.phases) (c.projectId, c.phaseId)
        ∧ c.change = c.newAmount - c.oldAmount) := by
  refine ⟨?_, ?_, ?_, ?_⟩
  · intro hk
    constructor
    · rintro ⟨c, hc, hck⟩
      rw [projects_of_compare, List.mem_filterMap] at hc
      obtain ⟨a, _, hfa⟩ := hc
      obtain ⟨hid, _, _, _, hne⟩ := emitProjChange_some_spec _ _ _ _ hfa
      have hak : a = k := by rw [← hck, hid]
      subst hak
      obtain ⟨_, ho, hn, _, _⟩ := emitProjChange_some_spec _ _ _ _ hfa
      rw [← ho, ← hn]
      exact hne
    · intro hne
      have hsome := (emitProjChange_isSome (buildProjDict prev.projects)
        (buildProjDict cur.projects) k).mpr hne
      obtain ⟨c, hc⟩ := Option.isSome_iff_exists.mp hsome
      refine ⟨c, ?_, (emitProjChange_some_spec _ _ _ _ hc).1⟩
      rw [projects_of_compare, List.mem_filterMap]
      exact ⟨k, hk, hc⟩
  · intro c hc
    rw [projects_of_compare, List.mem_filterMap] at hc
    obtain ⟨a, _, hfa⟩ := hc
    obtain ⟨hid, ho, hn, hch, _⟩ := emitProjChange_some_spec _ _ _ _ hfa
    subst hid
    exact ⟨ho, hn, hch⟩
  · intro hk
    constructor
    · rintro ⟨c, hc, hck⟩
      rw [phases_of_compare, List.mem_filterMap] at hc
      obtain ⟨a, _, hfa⟩ := hc
      obtain ⟨hid, _, _, _, hne⟩ := emitPhaseChange_some_spec _ _ _ _ hfa
      have hak : a = pk := by rw [← hck, hid]
      subst hak
      obtain ⟨_, ho, hn, _, _⟩ := emitPhaseChange_some_spec _ _ _ _ hfa
      rw [← ho, ← hn]
      exact hne
    · intro hne
      have hsome := (emitPhaseChange_isSome (buildPhaseDict prev.phases)
        (buildPhaseDict cur.phases) pk).mpr hne
      obtain ⟨c, hc⟩ := Option.isSome_iff_exists.mp hsome
      refine ⟨c, ?_, (emitPhaseChange_some_spec _ _ _ _ hc).1⟩
      rw [phases_of_compare, List.mem_filterMap]
      exact ⟨pk, hk, hc⟩
  · intro c hc
    rw [phases_of_compare, List.mem_filterMap] at hc
    obtain ⟨a, _, hfa⟩ := hc
    obtain ⟨hid, ho, hn, hch, _⟩ := emitPhaseChange_some_spec _ _ _ _ hfa
    rw [← hid] at ho hn
    exact ⟨ho, hn, hch⟩

/-- C4 witness: in the concrete snapshots the parent P1 (100 → 80) and
the child (P1,A) (10 → 15) both have differing resolved amounts, so a
change record is emitted for each. -/
theorem change_record_iff_witness :
    (∃ c ∈ (compare_contract_amounts (some wprev) wcur).projects, c.id = "P1")
    ∧ (∃ c ∈ (compare_contract_amounts (some wprev) wcur).phases,
        (c.projectId, c.phaseId) = ("P1", "A")) := by
  have h := change_record_iff_amount_differs wprev wcur "P1" ("P1", "A")
  exact ⟨(h.1 (by decide)).mpr (by decide), (h.2.2.1 (by decide)).mpr (by decide)⟩

lemma append_significant (s : String) :
    s ++ " " ++ "(Significant)" = s ++ " (Significant)" := by
  apply String.ext
  rw [String.data_append, String.data_append, String.data_append, List.append_assoc]
  exact congrArg (fun l => s.data ++ l) (by decide)

lemma reportFlag_eq_specClassification (o n : ℚ) :
    reportFlag o n (n - o) = specClassification o n := by
  simp only [reportFlag, specClassification, append_significant]
  have habs : |(n - o) / o * 100| = |(n - o) / o| * 100 := by
    rw [abs_mul]
    norm_num
  rw [habs]

lemma reportChangePercent_eq_spec (o n : ℚ) :
    reportChangePercent o (n - o) = specChangePercent o n := rfl

lemma reportFlag_zero_old (n d : ℚ) :
    reportFlag 0 n d = (if 0 < n then "New" else "") := by
  simp [reportFlag]

lemma resolvedAmount_of_none_amount {K : Type} [DecidableEq K] (d : List (K × Entry))
    (k : K) (e : Entry) (h : dlookup k d = some e) (ha : e.amount = none) :
    resolvedAmount d k = 0 := by
  simp [resolvedAmount, resolvedEntry, h, ha]

lemma resolvedAmount_of_absent {K : Type} [DecidableEq K] (d : List (K × Entry)) (k : K)
    (h : dlookup k d = none) : resolvedAmount d k = 0 := by
  simp [resolvedAmount, resolvedEntry, h, defaultEntry]

/-- C3: every emitted change record is classified by the spec's rule:
"New" from a zero old amount when the new amount is positive, otherwise
"Increase"/"Decrease"/empty by the sign of the delta, with
"(Significant)" appended (space-joined, trimmed) when the old amount is
nonzero and the absolute percent change is at least 10. -/
theorem classification_matches_spec (prev cur : Workbook) :
    (∀ c ∈ (compare_contract_amounts (some prev) cur).projects,
      reportFlag c.oldAmount c.newAmount c.change
        = specClassification c.oldAmount c.newAmount)
    ∧ (∀ c ∈ (compare_contract_amounts (some prev) cur).phases,
      reportFlag c.oldAmount c.newAmount c.change
        = specClassification c.oldAmount c.newAmount) := by
  constructor
  · intro c hc
    rw [projects_of_compare, List.mem_filterMap] at hc
    obtain ⟨a, _, hfa⟩ := hc
    obtain ⟨_, _, _, hch, _⟩ := emitProjChange_some_spec _ _ _ _ hfa
    rw [hch]
    exact reportFlag_eq_specClassification c.oldAmount c.newAmount
  · intro c hc
    rw [phases_of_compare, List.mem_filterMap] at hc
    obtain ⟨a, _, hfa⟩ := hc
    obtain ⟨_, _, _, hch, _⟩ := emitPhaseChange_some_spec _ _ _ _ hfa
    rw [hch]
    exact reportFlag_eq_specClassification c.oldAmount c.newAmount

/-- C3 witness: the record emitted for old=100, new=80 carries the
spec classification, and that classification is "Decrease (Significant)". -/
theorem classification_matches_spec_witness :
    reportFlag cW.oldAmount cW.newAmount cW.change
      = specClassification cW.oldAmount cW.newAmount
    ∧ specClassification 100 80 = "Decrease (Significant)" := by
  constructor
  · exact (classification_matches_spec wprev wcur).1 cW (List.mem_singleton.mpr rfl)
  · have habs : |((80 : ℚ) - 100) / 100| = 1 / 5 := by
      rw [abs_eq (by norm_num : (0 : ℚ) ≤ 1 / 5)]
      norm_num
    simp only [specClassification, habs]
    norm_num
    decide

/-- C6: every emitted record's reported change percent is
`(delta / oldAmount) × 100` when the old amount is nonzero, and the
sentinel `100` when the old amount is zero. -/
theorem change_percent_matches_spec (prev cur : Workbook) :
    (∀ c ∈ (compare_contract_amounts (some prev) cur).projects,
      reportChangePercent c.oldAmount c.change
        = specChangePercent c.oldAmount c.newAmount)
    ∧ (∀ c ∈ (compare_contract_amounts (some prev) cur).phases,
      reportChangePercent c.oldAmount c.change
        = specChangePercent c.oldAmount c.newAmount) := by
  constructor
  · intro c hc
    rw [projects_of_compare, List.mem_filterMap] at hc
    obtain ⟨a, _, hfa⟩ := hc
    obtain ⟨_, _, _, hch, _⟩ := emitProjChange_some_spec _ _ _ _ hfa
    rw [hch]
    exact reportChangePercent_eq_spec c.oldAmount c.newAmount
  · intro c hc
    rw [phases_of_compare, List.mem_filterMap] at hc
    obtain ⟨a, _, hfa⟩ := hc
    obtain ⟨_, _, _, hch, _⟩ := emitPhaseChange_some_spec _ _ _ _ hfa
    rw [hch]
    exact reportChangePercent_eq_spec c.oldAmount c.newAmount

/-- C6 witness: the percent reported for the old=100, new=80 record is
the spec's value, and that value is −20. -/
theorem change_percent_witness :
    reportChangePercent cW.oldAmount cW.change
      = specChangePercent cW.oldAmount cW.newAmount
    ∧ specChangePercent 100 80 = -20 := by
  constructor
  · exact (change_percent_matches_spec wprev wcur).1 cW (List.mem_singleton.mpr rfl)
  · simp only [specChangePercent]
    norm_num

/-- C1 counterexample: with no previous snapshot file, the comparison
returns the empty changes structure, although the current snapshot has an
entity with nonzero amount 100 — no entity is classified "New". -/
theorem missing_previous_yields_empty_changes :
    compare_contract_amounts none wprev = emptyChanges
    ∧ (compare_contract_amounts none wprev).projects.length = 0
    ∧ resolvedAmount (buildProjDict wprev.projects) "P1" = 100
    ∧ (100 : ℚ) ≠ 0 := by
  refine ⟨rfl, rfl, by decide, by decide⟩

/-- C1 amended: with no previous snapshot file the comparison returns
the empty changes structure; against an empty (but present) previous
snapshot it emits exactly one change per key with nonzero resolved
amount, at both granularities, every such record having old amount 0 and
classification "New" exactly when its new amount is positive. -/
theorem first_run_behavior (wb : Workbook) (k : String) (pk : String × String) :
    compare_contract_amounts none wb = emptyChanges
    ∧ ((compare_contract_amounts (some emptyWorkbook) wb).projects.countP
          fun c => decide (c.id = k))
        = (if resolvedAmount (buildProjDict wb.projects) k ≠ 0 then 1 else 0)
    ∧ (∀ c ∈ (compare_contract_amounts (some emptyWorkbook) wb).projects,
        c.oldAmount = 0 ∧ c.newAmount ≠ 0
        ∧ reportFlag c.oldAmount c.newAmount c.change
            = (if 0 < c.newAmount then "New" else ""))
    ∧ ((compare_contract_amounts (some emptyWorkbook) wb).phases.countP
          fun c => decide ((c.projectId, c.phaseId) = pk))
        = (if resolvedAmount (buildPhaseDict wb.phases) pk ≠ 0 then 1 else 0)
    ∧ (∀ c ∈ (compare_contract_amounts (some emptyWorkbook) wb).phases,
        c.oldAmount = 0 ∧ c.newAmount ≠ 0
        ∧ reportFlag c.oldAmount c.newAmount c.change
            = (if 0 < c.newAmount then "New" else ""))
    ∧ (compare_contract_amounts (some emptyWorkbook) wb).missing_phases = []
    ∧ (compare_contract_amounts (some emptyWorkbook) wb).phase_status_changes = [] := by
  refine ⟨rfl, ?_, ?_, ?_, ?_, ?_, ?_⟩
  · rw [projects_of_compare]
    by_cases hk : k ∈ keysUnion (buildProjDict emptyWorkbook.projects)
        (buildProjDict wb.projects)
    · rw [countP_filterMap_of_mem _ ProjChange.id
        (fun a c hc => (emitProjChange_some_spec _ _ _ _ hc).1) _
        (keysUnion_nodup _ _) k hk]
      have h0 : resolvedAmount (buildProjDict emptyWorkbook.projects) k = 0 := rfl
      by_cases hne : resolvedAmount (buildProjDict wb.projects) k ≠ 0
      · rw [if_pos, if_pos hne]
        rw [emitProjChange_isSome, h0]
        exact fun he => hne he.symm
      · rw [if_neg, if_neg hne]
        rw [emitProjChange_isSome, h0]
        push_neg at hne ⊢
        exact hne.symm
    · rw [countP_filterMap_of_not_mem _ ProjChange.id
        (fun a c hc => (emitProjChange_some_spec _ _ _ _ hc).1) _ k hk]
      have habs : resolvedAmount (buildProjDict wb.projects) k = 0 := by
        apply resolvedAmount_of_absent
        apply dlookup_eq_none_of_not_mem
        intro hmem
        exact hk ((mem_keysUnion _ _ k).mpr (Or.inr hmem))
      rw [habs]
      simp
  · intro c hc
    rw [projects_of_compare, List.mem_filterMap] at hc
    obtain ⟨a, _, hfa⟩ := hc
    obtain ⟨hid, ho, hn, hch, hne⟩ := emitProjChange_some_spec _ _ _ _ hfa
    have h0 : c.oldAmount = 0 := by rw [ho]; rfl
    refine ⟨h0, ?_, ?_⟩
    · rw [← h0]
      exact fun he => hne he.symm
    · rw [h0, reportFlag_zero_old]
  · rw [phases_of_compare]
    by_cases hk : pk ∈ keysUnion (buildPhaseDict emptyWorkbook.phases)
        (buildPhaseDict wb.phases)
    · rw [countP_filterMap_of_mem _ (fun c => (c.projectId, c.phaseId))
        (fun a c hc => (emitPhaseChange_some_spec _ _ _ _ hc).1) _
        (keysUnion_nodup _ _) pk hk]
      have h0 : resolvedAmount (buildPhaseDict emptyWorkbook.phases) pk = 0 := rfl
      by_cases hne : resolvedAmount (buildPhaseDict wb.phases) pk ≠ 0
      · rw [if_pos, if_pos hne]
        rw [emitPhaseChange_isSome, h0]
        exact fun he => hne he.symm
      · rw [if_neg, if_neg hne]
        rw [emitPhaseChange_isSome, h0]
        push_neg at hne ⊢
        exact hne.symm
    · rw [countP_filterMap_of_not_mem _ (fun c => (c.projectId, c.phaseId))
        (fun a c hc => (emitPhaseChange_some_spec _ _ _ _ hc).1) _ pk hk]
      have habs : resolvedAmount (buildPhaseDict wb.phases) pk = 0 := by
        apply resolvedAmount_of_absent
        apply dlookup_eq_none_of_not_mem
        intro hmem
        exact hk ((mem_keysUnion _ _ pk).mpr (Or.inr hmem))
      rw [habs]
      simp
  · intro c hc
    rw [phases_of_compare, List.mem_filterMap] at hc
    obtain ⟨a, _, hfa⟩ := hc
    obtain ⟨hid, ho, hn, hch, hne⟩ := emitPhaseChange_some_spec _ _ _ _ hfa
    have h0 : c.oldAmount = 0 := by rw [ho]; rfl
    refine ⟨h0, ?_, ?_⟩
    · rw [← h0]
      exact fun he => hne he.symm
    · rw [h0, reportFlag_zero_old]
  · rw [missing_of_compare, List.filterMap_eq_nil_iff]
    intro a _
    have : dlookup a (buildPhaseDict emptyWorkbook.phases) = none := rfl
    simp [emitMissingPhase, this]
  · rw [status_changes_of_compare, List.filterMap_eq_nil_iff]
    intro a _
    have : dlookup a (buildPhaseDict emptyWorkbook.phases) = none := rfl
    simp [emitPhaseStatusChange, this]

/-- C1 amended witness: for the concrete current snapshot `wprev`, the
empty-previous comparison emits exactly one change for key P1 and the
emitted record is classified "New". -/
theorem first_run_behavior_witness :
    ((compare_contract_amounts (some emptyWorkbook) wprev).projects.countP
        fun c => decide (c.id = "P1")) = 1
    ∧ cF.oldAmount = 0 ∧ cF.newAmount ≠ 0
    ∧ reportFlag cF.oldAmount cF.newAmount cF.change
        = (if 0 < cF.newAmount then "New" else "") := by
  have h := first_run_behavior wprev "P1" ("P1", "A")
  constructor
  · rw [h.2.1]
    decide
  · exact h.2.2.1 cF (List.mem_singleton.mpr rfl)

/-- C7: a (parent, child) key present in the previous snapshot and
absent from the current one yields exactly one missingChildren entry;
a key present in both with differing status yields a childStatusChanges
entry — in both cases regardless of the amounts. -/
theorem missing_and_status_entries (prev cur : Workbook) (pk : String × String) :
    (∀ e, dlookup pk (buildPhaseDict prev.phases) = some e →
      dlookup pk (buildPhaseDict cur.phases) = none →
      ((compare_contract_amounts (some prev) cur).missing_phases.countP
          fun m => decide ((m.projectId, m.phaseId) = pk)) = 1)
    ∧ (∀ eo en, dlookup pk (buildPhaseDict prev.phases) = some eo →
      dlookup pk (buildPhaseDict cur.phases) = some en → eo.status ≠ en.status →
      ∃ s ∈ (compare_contract_amounts (some prev) cur).phase_status_changes,
        s.projectId = pk.1 ∧ s.phaseId = pk.2 ∧ s.oldStatus = eo.status
          ∧ s.newStatus = en.status) := by
  constructor
  · intro e he hn
    rw [missing_of_compare]
    have hid : ∀ a m, emitMissingPhase (buildPhaseDict prev.phases)
        (buildPhaseDict cur.phases) a = some m → (m.projectId, m.phaseId) = a := by
      intro a m hm
      simp only [emitMissingPhase] at hm
      split_ifs at hm
      cases hm
      rfl
    rw [countP_filterMap_of_mem _ _ hid _ (keysUnion_nodup _ _) pk
      ((mem_keysUnion _ _ pk).mpr (Or.inl (mem_keys_of_dlookup_some _ _ _ he)))]
    have : emitMissingPhase (buildPhaseDict prev.phases) (buildPhaseDict cur.phases) pk
        = some ⟨pk.1, pk.2, e.description, e.status, e.amount⟩ := by
      simp [emitMissingPhase, resolvedEntry, he, hn]
    rw [this]
    rfl
  · intro eo en heo hen hst
    have hemit : emitPhaseStatusChange (buildPhaseDict prev.phases)
        (buildPhaseDict cur.phases) pk
        = some ⟨pk.1, pk.2, en.description, eo.status, en.status⟩ := by
      simp [emitPhaseStatusChange, resolvedEntry, heo, hen, hst]
    refine ⟨⟨pk.1, pk.2, en.description, eo.status, en.status⟩, ?_, rfl, rfl, rfl, rfl⟩
    rw [status_changes_of_compare, List.mem_filterMap]
    exact ⟨pk, (mem_keysUnion _ _ pk).mpr (Or.inl (mem_keys_of_dlookup_some _ _ _ heo)),
      hemit⟩

/-- C7 witness: in the concrete snapshots, phase (P1,B) disappears and
produces exactly one missing entry, and phase (P1,A) changes status
Open → Closed and produces a status-change entry. -/
theorem missing_and_status_witness :
    ((compare_contract_amounts (some wprev) wcur).missing_phases.countP
        fun m => decide ((m.projectId, m.phaseId) = ("P1", "B"))) = 1
    ∧ ∃ s ∈ (compare_contract_amounts (some wprev) wcur).phase_status_changes,
        s.projectId = "P1" ∧ s.phaseId = "A" ∧ s.oldStatus = some "Open"
          ∧ s.newStatus = some "Closed" := by
  constructor
  · exact (missing_and_status_entries wprev wcur ("P1", "B")).1
      ⟨some 7, some "PhB", some "Open", some "v1"⟩ (by decide) (by decide)
  · exact (missing_and_status_entries wprev wcur ("P1", "A")).2
      ⟨some 10, some "PhA", some "Open", some "u1"⟩
      ⟨some 15, some "PhA", some "Closed", some "u2"⟩
      (by decide) (by decide) (by decide)

lemma dlookup_foldl_build (k : String) :
    ∀ (rows : List ProjRow) (d : List (String × Entry)),
      dlookup k (rows.foldl
        (fun d r =>
          match r.id with
          | some k2 => dinsert k2 (projEntry r) d
          | none => d) d)
        = (lastEntry k rows).elim (dlookup k d) some := by
  intro rows
  induction rows with
  | nil =>
    intro d
    simp [lastEntry]
  | cons r rest ih =>
    intro d
    rw [List.foldl_cons, ih]
    cases hrest : lastEntry k rest with
    | some e => simp [lastEntry, hrest]
    | none =>
      cases hr : r.id with
      | none => simp [lastEntry, hrest, hr]
      | some k2 =>
        by_cases hk2 : k2 = k
        · subst hk2
          simp [lastEntry, hrest, hr, dlookup_dinsert_self]
        · simp [lastEntry, hrest, hr, dlookup_dinsert_ne k k2 hk2, hk2]

lemma dlookup_buildProjDict (rows : List ProjRow) (k : String) :
    dlookup k (buildProjDict rows) = lastEntry k rows := by
  have h := dlookup_foldl_build k rows []
  rw [buildProjDict] at *
  cases hl : lastEntry k rows <;> rw [hl] at h <;> simpa [dlookup] using h

lemma lastEntry_append (k : String) (xs ys : List ProjRow) :
    lastEntry k (xs ++ ys) = (lastEntry k ys).elim (lastEntry k xs) some := by
  induction xs with
  | nil => cases h : lastEntry k ys <;> simp [lastEntry, h]
  | cons x xs ih =>
    rw [List.cons_append]
    cases h : lastEntry k ys with
    | some e =>
      rw [h] at ih
      simp only [lastEntry, ih, h]
      rfl
    | none =>
      rw [h] at ih
      simp only [lastEntry, ih, h]
      rfl

lemma lastEntry_isSome_of_mem (k : String) :
    ∀ (ys : List ProjRow) (r2 : ProjRow), r2 ∈ ys → r2.id = some k →
      ∃ e, lastEntry k ys = some e := by
  intro ys
  induction ys with
  | nil => intro r2 h; simp at h
  | cons y rest ih =>
    intro r2 hmem hid
    cases hrest : lastEntry k rest with
    | some e => exact ⟨e, by simp [lastEntry, hrest]⟩
    | none =>
      rcases List.mem_cons.mp hmem with h | h
      · subst h
        exact ⟨projEntry r2, by simp [lastEntry, hrest, hid]⟩
      · obtain ⟨e, he⟩ := ih r2 h hid
        rw [hrest] at he
        cases he

/-- C9 counterexample: a duplicate parent Identifier is kept with
last-write-wins semantics, but it is not flagged or reported: the
comparison's observable output for the duplicated input is identical to
the output for the input holding only the surviving row, so no consumer
can tell a duplicate occurred. -/
theorem duplicate_identifier_not_flagged :
    buildProjDict [rowDupA, rowDupB] = buildProjDict [rowDupB]
    ∧ dlookup "P1" (buildProjDict [rowDupA, rowDupB]) = some (projEntry rowDupB)
    ∧ compare_contract_amounts (some ⟨[rowDupA, rowDupB], []⟩) wcur
        = compare_contract_amounts (some ⟨[rowDupB], []⟩) wcur := by
  refine ⟨by decide, by decide, rfl⟩

/-- C9 amended: building the snapshot from rows with duplicate parent
Identifiers keeps the last occurrence's data (last write wins) and the
comparison still completes, but the duplicate condition is not flagged:
an earlier duplicate occurrence can be deleted without changing any
lookup, so the result is indistinguishable from a duplicate-free input. -/
theorem duplicate_last_write_wins (rows : List ProjRow) (k : String) :
    dlookup k (buildProjDict rows) = lastEntry k rows
    ∧ (∀ (xs ys : List ProjRow) (r : ProjRow) (dk : String), r.id = some dk →
        (∃ r2 ∈ ys, r2.id = some dk) →
        dlookup k (buildProjDict (xs ++ r :: ys)) = dlookup k (buildProjDict (xs ++ ys))) := by
  refine ⟨dlookup_buildProjDict rows k, ?_⟩
  rintro xs ys r dk hr ⟨r2, h2, hid2⟩
  rw [dlookup_buildProjDict, dlookup_buildProjDict, lastEntry_append, lastEntry_append]
  have hcons : lastEntry k (r :: ys) = lastEntry k ys := by
    by_cases hk : dk = k
    · subst hk
      obtain ⟨e, he⟩ := lastEntry_isSome_of_mem dk ys r2 h2 hid2
      simp [lastEntry, he]
    · cases hys : lastEntry k ys with
      | some e => simp [lastEntry, hys]
      | none =>
        simp only [lastEntry, hys]
        rw [hr, if_neg (fun h : some dk = some k => hk (Option.some.inj h))]
  rw [hcons]

/-- C9 amended witness: for the concrete duplicated input, the lookup is
the last occurrence's entry, and deleting the earlier duplicate does not
change the lookup. -/
theorem duplicate_last_write_wins_witness :
    dlookup "P1" (buildProjDict [rowDupA, rowDupB]) = lastEntry "P1" [rowDupA, rowDupB]
    ∧ dlookup "P1" (buildProjDict ([] ++ rowDupA :: [rowDupB]))
        = dlookup "P1" (buildProjDict ([] ++ [rowDupB])) := by
  constructor
  · exact (duplicate_last_write_wins [rowDupA, rowDupB] "P1").1
  · exact (duplicate_last_write_wins [] "P1").2 [] [rowDupB] rowDupA "P1" rfl
      ⟨rowDupB, List.mem_singleton.mpr rfl, rfl⟩

/-- C10: a `None` amount is treated exactly as 0, at both granularities:
a key whose amount is null in both snapshots, or null in one and absent
in the other, produces no amount-change record (parent or child), and a
null-to-nonzero transition yields the same amounts, delta and
classification as an absent-to-nonzero one, for parents and for
(parent, child) phase keys alike. -/
theorem null_amount_treated_as_zero (prev prev2 cur : Workbook) (k : String)
    (pk : String × String) :
    (∀ eo en, dlookup k (buildProjDict prev.projects) = some eo → eo.amount = none →
      dlookup k (buildProjDict cur.projects) = some en → en.amount = none →
      ((compare_contract_amounts (some prev) cur).projects.countP
          fun c => decide (c.id = k)) = 0)
    ∧ (∀ eo, dlookup k (buildProjDict prev.projects) = some eo → eo.amount = none →
      dlookup k (buildProjDict cur.projects) = none →
      ((compare_contract_amounts (some prev) cur).projects.countP
          fun c => decide (c.id = k)) = 0)
    ∧ (∀ en, dlookup k (buildProjDict prev.projects) = none →
      dlookup k (buildProjDict cur.projects) = some en → en.amount = none →
      ((compare_contract_amounts (some prev) cur).projects.countP
          fun c => decide (c.id = k)) = 0)
    ∧ (∀ eo, dlookup k (buildProjDict prev.projects) = some eo → eo.amount = none →
      dlookup k (buildProjDict prev2.projects) = none →
      ∀ c ∈ (compare_contract_amounts (some prev) cur).projects,
      ∀ c2 ∈ (compare_contract_amounts (some prev2) cur).projects,
        c.id = k → c2.id = k →
        c.oldAmount = c2.oldAmount ∧ c.newAmount = c2.newAmount ∧ c.change = c2.change
          ∧ reportFlag c.oldAmount c.newAmount c.change
              = reportFlag c2.oldAmount c2.newAmount c2.change)
    ∧ (∀ eo en, dlookup pk (buildPhaseDict prev.phases) = some eo → eo.amount = none →
      dlookup pk (buildPhaseDict cur.phases) = some en → en.amount = none →
      ((compare_contract_amounts (some prev) cur).phases.countP
          fun c => decide ((c.projectId, c.phaseId) = pk)) = 0)
    ∧ (∀ eo, dlookup pk (buildPhaseDict prev.phases) = some eo → eo.amount = none →
      dlookup pk (buildPhaseDict cur.phases) = none →
      ((compare_contract_amounts (some prev) cur).phases.countP
          fun c => decide ((c.projectId, c.phaseId) = pk)) = 0)
    ∧ (∀ en, dlookup pk (buildPhaseDict prev.phases) = none →
      dlookup pk (buildPhaseDict cur.phases) = some en → en.amount = none →
      ((compare_contract_amounts (some prev) cur).phases.countP
          fun c => decide ((c.projectId, c.phaseId) = pk)) = 0)
    ∧ (∀ eo, dlookup pk (buildPhaseDict prev.phases) = some eo → eo.amount = none →
      dlookup pk (buildPhaseDict prev2.phases) = none →
      ∀ c ∈ (compare_contract_amounts (some prev) cur).phases,
      ∀ c2 ∈ (compare_contract_amounts (some prev2) cur).phases,
        (c.projectId, c.phaseId) = pk → (c2.projectId, c2.phaseId) = pk →
        c.oldAmount = c2.oldAmount ∧ c.newAmount = c2.newAmount ∧ c.change = c2.change
          ∧ reportFlag c.oldAmount c.newAmount c.change
              = reportFlag c2.oldAmount c2.newAmount c2.change) := by
  have hzero : ∀ (w : Workbook) (ho : resolvedAmount (buildProjDict w.projects) k = 0)
      (hcur : resolvedAmount (buildProjDict cur.projects) k = 0),
      ((compare_contract_amounts (some w) cur).projects.countP
        fun c => decide (c.id = k)) = 0 := by
    intro w ho hcur
    rw [projects_of_compare, List.countP_eq_zero]
    intro c hc
    simp only [decide_eq_true_eq]
    intro hck
    obtain ⟨a, _, hfa⟩ := List.mem_filterMap.mp hc
    obtain ⟨hid, ho2, hn2, _, hne⟩ := emitProjChange_some_spec _ _ _ _ hfa
    have hak : a = k := by rw [← hck, hid]
    subst hak
    rw [ho2, hn2, ho, hcur] at hne
    exact hne rfl
  have hzeroPh : ∀ (w : Workbook) (ho : resolvedAmount (buildPhaseDict w.phases) pk = 0)
      (hcur : resolvedAmount (buildPhaseDict cur.phases) pk = 0),
      ((compare_contract_amounts (some w) cur).phases.countP
        fun c => decide ((c.projectId, c.phaseId) = pk)) = 0 := by
    intro w ho hcur
    rw [phases_of_compare, List.countP_eq_zero]
    intro c hc
    simp only [decide_eq_true_eq]
    intro hck
    obtain ⟨a, _, hfa⟩ := List.mem_filterMap.mp hc
    obtain ⟨hid, ho2, hn2, _, hne⟩ := emitPhaseChange_some_spec _ _ _ _ hfa
    have hak : a = pk := by rw [← hck, hid]
    subst hak
    rw [ho2, hn2, ho, hcur] at hne
    exact hne rfl
  refine ⟨?_, ?_, ?_, ?_, ?_, ?_, ?_, ?_⟩
  · intro eo en heo hao hen han
    exact hzero prev (resolvedAmount_of_none_amount _ _ _ heo hao)
      (resolvedAmount_of_none_amount _ _ _ hen han)
  · intro eo heo hao hn
    exact hzero prev (resolvedAmount_of_none_amount _ _ _ heo hao)
      (resolvedAmount_of_absent _ _ hn)
  · intro en hp hen han
    exact hzero prev (resolvedAmount_of_absent _ _ hp)
      (resolvedAmount_of_none_amount _ _ _ hen han)
  · intro eo heo hao hp2 c hc c2 hc2 hck hck2
    rw [projects_of_compare, List.mem_filterMap] at hc hc2
    obtain ⟨a, _, hfa⟩ := hc
    obtain ⟨a2, _, hfa2⟩ := hc2
    obtain ⟨hid, ho, hn, hch, _⟩ := emitProjChange_some_spec _ _ _ _ hfa
    obtain ⟨hid2, ho2, hn2, hch2, _⟩ := emitProjChange_some_spec _ _ _ _ hfa2
    have hak : a = k := by rw [← hck, hid]
    have hak2 : a2 = k := by rw [← hck2, hid2]
    subst hak hak2
    have e1 : c.oldAmount = 0 := by
      rw [ho]
      exact resolvedAmount_of_none_amount _ _ _ heo hao
    have e2 : c2.oldAmount = 0 := by
      rw [ho2]
      exact resolvedAmount_of_absent _ _ hp2
    have e3 : c.newAmount = c2.newAmount := by rw [hn, hn2]
    refine ⟨by rw [e1, e2], e3, ?_, ?_⟩
    · rw [hch, hch2, e1, e2, e3]
    · rw [hch, hch2, e1, e2, e3]
  · intro eo en heo hao hen han
    exact hzeroPh prev (resolvedAmount_of_none_amount _ _ _ heo hao)
      (resolvedAmount_of_none_amount _ _ _ hen han)
  · intro eo heo hao hn
    exact hzeroPh prev (resolvedAmount_of_none_amount _ _ _ heo hao)
      (resolvedAmount_of_absent _ _ hn)
  · intro en hp hen han
    exact hzeroPh prev (resolvedAmount_of_absent _ _ hp)
      (resolvedAmount_of_none_amount _ _ _ hen han)
  · intro eo heo hao hp2 c hc c2 hc2 hck hck2
    rw [phases_of_compare, List.mem_filterMap] at hc hc2
    obtain ⟨a, _, hfa⟩ := hc
    obtain ⟨a2, _, hfa2⟩ := hc2
    obtain ⟨hid, ho, hn, hch, _⟩ := emitPhaseChange_some_spec _ _ _ _ hfa
    obtain ⟨hid2, ho2, hn2, hch2, _⟩ := emitPhaseChange_some_spec _ _ _ _ hfa2
    have hak : a = pk := by rw [← hck, hid]
    have hak2 : a2 = pk := by rw [← hck2, hid2]
    subst hak hak2
    have e1 : c.oldAmount = 0 := by
      rw [ho]
      exact resolvedAmount_of_none_amount _ _ _ heo hao
    have e2 : c2.oldAmount = 0 := by
      rw [ho2]
      exact resolvedAmount_of_absent _ _ hp2
    have e3 : c.newAmount = c2.newAmount := by rw [hn, hn2]
    refine ⟨by rw [e1, e2], e3, ?_, ?_⟩
    · rw [hch, hch2, e1, e2, e3]
    · rw [hch, hch2, e1, e2, e3]

/-- C10 witness: a null-in-both comparison emits no record for parent P1
nor for phase (P1,A), and the null-to-50 and absent-to-50 records agree
in amounts, delta and classification at both granularities. -/
theorem null_amount_witness :
    ((compare_contract_amounts (some wbNullPrev) wbNullCur).projects.countP
        fun c => decide (c.id = "P1")) = 0
    ∧ cNull.oldAmount = cAbsent.oldAmount ∧ cNull.newAmount = cAbsent.newAmount
    ∧ cNull.change = cAbsent.change
    ∧ reportFlag cNull.oldAmount cNull.newAmount cNull.change
        = reportFlag cAbsent.oldAmount cAbsent.newAmount cAbsent.change
    ∧ ((compare_contract_amounts (some phNullPrev) phNullCur).phases.countP
        fun c => decide ((c.projectId, c.phaseId) = ("P1", "A"))) = 0
    ∧ pNull.oldAmount = pAbsent.oldAmount ∧ pNull.newAmount = pAbsent.newAmount
    ∧ pNull.change = pAbsent.change
    ∧ reportFlag pNull.oldAmount pNull.newAmount pNull.change
        = reportFlag pAbsent.oldAmount pAbsent.newAmount pAbsent.change := by
  obtain ⟨hn1, -, -, -, -, -, -, -⟩ :=
    null_amount_treated_as_zero wbNullPrev emptyWorkbook wbNullCur "P1" ("P1", "A")
  obtain ⟨-, -, -, hc4, -, -, -, -⟩ :=
    null_amount_treated_as_zero wbNullPrev emptyWorkbook wbAmtCur "P1" ("P1", "A")
  obtain ⟨-, -, -, -, hp1, -, -, -⟩ :=
    null_amount_treated_as_zero phNullPrev emptyWorkbook phNullCur "P1" ("P1", "A")
  obtain ⟨-, -, -, -, -, -, -, hp4⟩ :=
    null_amount_treated_as_zero phNullPrev emptyWorkbook phAmtCur "P1" ("P1", "A")
  obtain ⟨ha2, ha3, ha4, ha5⟩ :=
    hc4 ⟨none, some "D", some "Active", some "t0"⟩ (by decide) rfl rfl
      cNull (List.mem_singleton.mpr rfl) cAbsent (List.mem_singleton.mpr rfl) rfl rfl
  obtain ⟨hb2, hb3, hb4, hb5⟩ :=
    hp4 ⟨none, some "PD", some "Open", some "w0"⟩ (by decide) rfl rfl
      pNull (List.mem_singleton.mpr rfl) pAbsent (List.mem_singleton.mpr rfl) rfl rfl
  refine ⟨?_, ha2, ha3, ha4, ha5, ?_, hb2, hb3, hb4, hb5⟩
  · exact hn1 ⟨none, some "D", some "Active", some "t0"⟩
      ⟨none, some "D", some "Active", some "t3"⟩ (by decide) rfl (by decide) rfl
  · exact hp1 ⟨none, some "PD", some "Open", some "w0"⟩
      ⟨none, some "PD", some "Open", some "w3"⟩ (by decide) rfl (by decide) rfl

lemma fetchDetailsGo_all_fail {α : Type} (oracle : String → ℕ → Except FetchError α)
    (rd : ℕ) (key : String) (h : ∀ n, ∃ e, oracle key n = Except.error e) :
    ∀ (remaining attempt : ℕ), fetchDetailsGo oracle rd key attempt remaining
      = ⟨none, remaining + 1, (List.range remaining).map (fun i => rd * (attempt + i)),
          true⟩ := by
  intro remaining
  induction remaining with
  | zero =>
    intro attempt
    obtain ⟨e, he⟩ := h attempt
    simp [fetchDetailsGo, he]
  | succ n ih =>
    intro attempt
    obtain ⟨e, he⟩ := h attempt
    have hdel : (List.range (n + 1)).map (fun i => rd * (attempt + i))
        = rd * attempt :: (List.range n).map (fun i => rd * (attempt + 1 + i)) := by
      rw [List.range_succ_eq_map, List.map_cons, List.map_map]
      refine congrArg₂ List.cons ?_ ?_
      · simp
      · apply List.map_congr_left
        intro i _
        show rd * (attempt + (i + 1)) = rd * (attempt + 1 + i)
        exact congrArg (fun m => rd * m) (by omega)
    simp only [fetchDetailsGo, he]
    rw [ih (attempt + 1), hdel]

lemma fetch_details_all_fail {α : Type} (oracle : String → ℕ → Except FetchError α)
    (rc rd : ℕ) (key : String) (h : ∀ n, ∃ e, oracle key n = Except.error e) :
    fetch_project_details oracle rc rd key 1
      = ⟨none, rc - 1 + 1, (List.range (rc - 1)).map (fun i => rd * (1 + i)), true⟩ := by
  rw [fetch_project_details]
  exact fetchDetailsGo_all_fail oracle rd key h (rc - 1) 1

lemma fetch_details_first_ok {α : Type} (oracle : String → ℕ → Except FetchError α)
    (rc rd : ℕ) (key : String) (r : α) (h : oracle key 1 = Except.ok r) :
    fetch_project_details oracle rc rd key 1 = ⟨some r, 1, [], false⟩ := by
  rw [fetch_project_details]
  cases hrc : rc - 1 with
  | zero => simp [fetchDetailsGo, h]
  | succ n => simp [fetchDetailsGo, h]

lemma filterMap_result_filter {α : Type} (f : String → Option α) (g : String)
    (rec : String → α) (hg : f g = none) (hok : ∀ k, k ≠ g → f k = some (rec k)) :
    ∀ l : List String, l.filterMap f = (l.filter fun k => decide (k ≠ g)).map rec := by
  intro l
  induction l with
  | nil => rfl
  | cons a rest ih =>
    by_cases ha : a = g
    · subst ha
      rw [List.filterMap_cons, hg, List.filter_cons]
      simp [ih]
    · rw [List.filterMap_cons, hok a ha, List.filter_cons]
      simp [ha, ih]

/-- C2: a record-source stub that always raises a transient error for
group G makes `fetchAll` attempt G exactly retries+1 times (with linear
backoff sleeps delay×1, …, delay×retries between attempts), return all
other groups' records while excluding G's, and report exactly one failed
group. The code's `retry_count` bounds total attempts, so the number of
retries is `retry_count − 1`. -/
theorem retry_exhaustion_drops_failed_group {α : Type}
    (oracle : String → ℕ → Except FetchError α) (retries delay : ℕ)
    (projects : List String) (g : String) (rec : String → α)
    (hg : ∀ n, oracle g n = Except.error FetchError.transient)
    (hok : ∀ k, k ≠ g → oracle k 1 = Except.ok (rec k))
    (hcount : (projects.countP fun k => decide (k = g)) = 1) :
    (fetch_project_details oracle (retries + 1) delay g 1).attempts = retries + 1
    ∧ (fetch_project_details oracle (retries + 1) delay g 1).delays
        = (List.range retries).map (fun i => delay * (1 + i))
    ∧ (fetch_project_details oracle (retries + 1) delay g 1).result = none
    ∧ process_projects_in_batches oracle (retries + 1) delay projects
        = (projects.filter fun k => decide (k ≠ g)).map rec
    ∧ failed_project_count oracle (retries + 1) delay projects = 1 := by
  have hfail : ∀ n, ∃ e, oracle g n = Except.error e := fun n => ⟨_, hg n⟩
  have htr := fetch_details_all_fail oracle (retries + 1) delay g hfail
  have hsub : retries + 1 - 1 = retries := by omega
  rw [hsub] at htr
  refine ⟨by rw [htr], by rw [htr], by rw [htr], ?_, ?_⟩
  · rw [process_projects_in_batches]
    apply filterMap_result_filter
    · rw [htr]
    · intro k hk
      rw [fetch_details_first_ok oracle (retries + 1) delay k (rec k) (hok k hk)]
  · have hcpt : failed_project_count oracle (retries + 1) delay projects
        = projects.countP fun k => decide (k = g) := by
      rw [failed_project_count]
      apply List.countP_congr
      intro k _
      by_cases hk : k = g
      · subst hk
        rw [htr]
        simp
      · rw [fetch_details_first_ok oracle (retries + 1) delay k (rec k) (hok k hk)]
        simp [hk]
    rw [hcpt, hcount]

/-- C2 witness: with the concrete stub failing only for "G" and projects
A, G, B, the fetch of G makes 3 attempts with sleeps 1·1 and 1·2, A and
B's records are returned, G's are excluded, and one failure is counted. -/
theorem retry_exhaustion_witness :
    (fetch_project_details oracleG (2 + 1) 1 "G" 1).attempts = 2 + 1
    ∧ (fetch_project_details oracleG (2 + 1) 1 "G" 1).delays
        = (List.range 2).map (fun i => 1 * (1 + i))
    ∧ (fetch_project_details oracleG (2 + 1) 1 "G" 1).result = none
    ∧ process_projects_in_batches oracleG (2 + 1) 1 ["A", "G", "B"]
        = ((["A", "G", "B"].filter fun k => decide (k ≠ "G")).map fun k => k)
    ∧ failed_project_count oracleG (2 + 1) 1 ["A", "G", "B"] = 1 :=
  retry_exhaustion_drops_failed_group oracleG 2 1 ["A", "G", "B"] "G" (fun k => k)
    (fun _ => rfl) (fun k hk => by simp [oracleG, hk]) (by decide)

/-- C8 counterexample: a non-transient (authentication) failure is not
surfaced and does not abort the run — it is retried like any other
exception (3 attempts, not 1), then the project is silently dropped and
processing of the remaining projects continues, returning a result. -/
theorem auth_failure_retried_and_dropped :
    (fetch_project_details oracleAuth 3 1 "P1" 1).attempts = 3
    ∧ (fetch_project_details oracleAuth 3 1 "P1" 1).attempts ≠ 1
    ∧ (fetch_project_details oracleAuth 3 1 "P1" 1).delays = [1, 2]
    ∧ (fetch_project_details oracleAuth 3 1 "P1" 1).result = none
    ∧ process_projects_in_batches oracleAuth 3 1 ["P1"] = ([] : List String) := by
  refine ⟨by decide, by decide, by decide, by decide, by decide⟩

/-- C8 amended: the fetch retry logic does not distinguish error kinds:
an always-failing source behaves identically whether its error is
transient or an authentication failure — the same attempts are made, the
result is `None` (the project is dropped), and the batch run continues,
returning a list rather than aborting. -/
theorem fetch_error_kind_irrelevant {α : Type} (e e2 : FetchError) (rc rd : ℕ)
    (key : String) (ps : List String) :
    @fetch_project_details α (fun _ _ => Except.error e) rc rd key 1
      = @fetch_project_details α (fun _ _ => Except.error e2) rc rd key 1
    ∧ (@fetch_project_details α (fun _ _ => Except.error e) rc rd key 1).result = none
    ∧ (@fetch_project_details α (fun _ _ => Except.error e) rc rd key 1).attempts
        = rc - 1 + 1
    ∧ @process_projects_in_batches α (fun _ _ => Except.error e) rc rd ps = [] := by
  have h1 := fetch_details_all_fail (fun _ _ => (Except.error e : Except FetchError α))
    rc rd key (fun _ => ⟨e, rfl⟩)
  have h2 := fetch_details_all_fail (fun _ _ => (Except.error e2 : Except FetchError α))
    rc rd key (fun _ => ⟨e2, rfl⟩)
  refine ⟨by rw [h1, h2], by rw [h1], by rw [h1], ?_⟩
  rw [process_projects_in_batches, List.filterMap_eq_nil_iff]
  intro a _
  rw [fetch_details_all_fail (fun _ _ => (Except.error e : Except FetchError α))
    rc rd a (fun _ => ⟨e, rfl⟩)]

end Ajera
